import Mathlib

/-!
Verification of the fault-injection decision engine of baseplate.go
(package `internal/faults`).

The Go source is shallowly embedded: the decision engine `InjectFault`
becomes a pure Lean function from its parameters to an explicit trace of
its observable effects (outcome, sleeps, random draws consulted, warnings
logged, headers looked up).  Go machine integers are modelled as `Int`
with explicit wrapping (`wrap64`) where 64-bit overflow matters, and Go
runtime panics surface as an explicit `Outcome.panicked` value.
-/

namespace Faults

/-! ### Go standard-library helpers used by the source -/

/-- Value of an ASCII decimal digit, `none` for any other character.  Used to
model `strconv.Atoi`. -/
def digitVal (c : Char) : Option Nat :=
  if '0' ≤ c ∧ c ≤ '9' then some (c.toNat - 48) else none

/-- Accumulate a decimal digit string; `none` on the first non-digit. -/
def digitsValAux : List Char → Nat → Option Nat
  | [], acc => some acc
  | c :: cs, acc =>
    match digitVal c with
    | none => none
    | some d => digitsValAux cs (acc * 10 + d)

/-- Go `strconv.Atoi` (i.e. `ParseInt(s, 10, 0)` on a 64-bit platform):
an optional single leading sign followed by at least one decimal digit;
`none` models a non-nil error (syntax error, empty string, or a value
outside the `int64` range). -/
def atoi (s : String) : Option Int :=
  let signed : Bool × List Char :=
    match s.data with
    | '-' :: rest => (true, rest)
    | '+' :: rest => (false, rest)
    | cs => (false, cs)
  match signed.2 with
  | [] => none
  | ds =>
    match digitsValAux ds 0 with
    | none => none
    | some n =>
      let v : Int := if signed.1 then -(n : Int) else (n : Int)
      if v < -(2 ^ 63 : Int) ∨ (2 ^ 63 : Int) - 1 < v then none else some v

/-- Go `strings.TrimSuffix s suffix`: drop the trailing occurrence of
`suffix` when present, otherwise return `s` unchanged. -/
def trimSuffix (s suffix : String) : String :=
  if suffix.data.isSuffixOf s.data then
    String.mk (s.data.take (s.data.length - suffix.data.length))
  else s

/-- Two's-complement wraparound of a mathematical integer into `int64`. -/
def wrap64 (x : Int) : Int := (x + 2 ^ 63) % 2 ^ 64 - 2 ^ 63

/-- Go `time.Duration(delay) * time.Millisecond`: the number of `int64`
nanoseconds passed to the sleep function, with 64-bit wraparound. -/
def durationNs (delay : Int) : Int := wrap64 (delay * 1000000)

/-! ### Header constants

The header-name constants are declared in a file of this repository that is
not part of the sources provided (only referenced from `faults.go`); the
decision logic only requires them to be distinct opaque keys, so they are
modelled as the distinct strings below. -/

def FaultServerAddressHeader : String := "fault-server-address"

def FaultServerMethodHeader : String := "fault-server-method"

def FaultDelayMsHeader : String := "fault-delay-ms"

def FaultDelayPercentageHeader : String := "fault-delay-percentage"

def FaultAbortCodeHeader : String := "fault-abort-code"

def FaultAbortMessageHeader : String := "fault-abort-message"

def FaultAbortPercentageHeader : String := "fault-abort-percentage"

/-- The cluster-local DNS suffix stripped from the configured address. -/
def clusterSuffix : String := ".svc.cluster.local"

/-! ### The percentage sampler -/

/-- Trace of one `isSelected` call.

From src `faults.go`: `isSelected` reads the percentage header; an empty
value selects unconditionally; a non-integer or out-of-range value returns
`(false, msg)`; otherwise it compares `singleRand.getRandInt()` with the
percentage.  `getRandInt` reads through the `randInt` pointer: when the
pointer is nil the code evaluates `rand.Intn(100)` and then assigns through
the nil pointer, which panics; `result = none` models that panic.
`draws` records the values returned by `getRandInt`, `randCalls` counts
`rand.Intn` invocations, `lookups` records header keys read. -/
structure SelOutcome where
  result : Option (Bool × String)
  draws : List Int
  randCalls : Nat
  lookups : List String
deriving DecidableEq, Repr

/-- Shallow embedding of `isSelected` (src `faults.go` lines 29-42) together
with `randSingleton.getRandInt` (lines 22-27).  `randInt` is the value of
the `randInt` pointer (`none` = nil). -/
def isSelected (percentageHeader : String) (gh : String → String)
    (randInt : Option Int) : SelOutcome :=
  let percentageStr := gh percentageHeader
  if percentageStr = "" then
    ⟨some (true, ""), [], 0, [percentageHeader]⟩
  else
    match atoi percentageStr with
    | none =>
      ⟨some (false, "provided delay percentage " ++ percentageStr ++
        " is not a valid integer"), [], 0, [percentageHeader]⟩
    | some percentage =>
      if percentage < 0 ∨ percentage > 100 then
        ⟨some (false, "provided delay percentage " ++ toString percentage ++
          " is outside the valid range of [0-100]"), [], 0, [percentageHeader]⟩
      else
        match randInt with
        | none => ⟨none, [], 1, [percentageHeader]⟩
        | some v => ⟨some (decide (v < percentage), ""), [v], 0, [percentageHeader]⟩

/-! ### The decision engine -/

/-- Final outcome of one `InjectFault` decision.

`resumed` means the engine returned `params.ResumeFn()` — the resume
callback was invoked exactly once and its `(response, error)` pair was
returned unmodified, with the respond callback never invoked.
`responded code message` means the engine returned
`params.ResponseFn(code, message)` — the respond callback was invoked
exactly once with these arguments and its result returned unmodified, with
the resume callback never invoked.  `panicked` means a Go runtime panic
(nil-pointer dereference) escaped before any callback result was
returned. -/
inductive Outcome where
  | resumed : Outcome
  | responded : Int → String → Outcome
  | panicked : Outcome
deriving DecidableEq, Repr

/-- Parameters of `InjectFault` (src `faults.go` lines 44-57).  The
callbacks `ResumeFn`, `ResponseFn` and `SleepFn` are not carried as data:
their invocations are recorded in the result trace instead.  `randInt`
models the test-only `RandInt` pointer (`none` = nil, the production
configuration). -/
structure InjectFaultParams where
  callerName : String
  address : String
  method : String
  abortCodeMin : Int
  abortCodeMax : Int
  getHeaderFn : String → String
  randInt : Option Int

/-- Trace of one `InjectFault` decision: the outcome plus every observable
effect, in order of occurrence.  `sleeps` holds the `int64` nanosecond
durations passed to the sleep function, `draws` the values obtained from
`getRandInt`, `randCalls` the number of `rand.Intn` invocations,
`warnings` the `slog.Warn` messages, and `lookups` the header keys passed
to `GetHeaderFn`. -/
structure InjectFaultResult where
  outcome : Outcome
  sleeps : List Int
  draws : List Int
  randCalls : Nat
  warnings : List String
  lookups : List String
deriving DecidableEq, Repr

/-- Abort phase of `InjectFault` (src `faults.go` lines 94-114), reached
after the delay phase.  The accumulator arguments carry the effects of the
earlier phases.  Takes exactly the parameter fields the remaining Go code
reads. -/
def injectAbortPhase (caller : String) (gh : String → String)
    (randInt : Option Int) (lo hi : Int) (sleeps draws : List Int)
    (randCalls : Nat) (warnings lookups : List String) : InjectFaultResult :=
  let abortCode := gh FaultAbortCodeHeader
  let lk := lookups ++ [FaultAbortCodeHeader]
  if abortCode = "" then
    { outcome := .resumed, sleeps := sleeps, draws := draws,
      randCalls := randCalls, warnings := warnings, lookups := lk }
  else
    let sel := isSelected FaultAbortPercentageHeader gh randInt
    let lk2 := lk ++ sel.lookups
    let draws2 := draws ++ sel.draws
    let rc2 := randCalls + sel.randCalls
    match sel.result with
    | none =>
      { outcome := .panicked, sleeps := sleeps, draws := draws2,
        randCalls := rc2, warnings := warnings, lookups := lk2 }
    | some (false, msg) =>
      { outcome := .resumed, sleeps := sleeps, draws := draws2,
        randCalls := rc2, warnings := warnings ++ [caller ++ ": " ++ msg],
        lookups := lk2 }
    | some (true, _) =>
      match atoi abortCode with
      | none =>
        { outcome := .resumed, sleeps := sleeps, draws := draws2,
          randCalls := rc2,
          warnings := warnings ++ [caller ++ ": provided abort code " ++
            abortCode ++ " is not a valid integer"],
          lookups := lk2 }
      | some code =>
        if code < lo ∨ code > hi then
          { outcome := .resumed, sleeps := sleeps, draws := draws2,
            randCalls := rc2,
            warnings := warnings ++ [caller ++ ": provided abort code " ++
              toString code ++ " is outside of the valid range"],
            lookups := lk2 }
        else
          { outcome := .responded code (gh FaultAbortMessageHeader),
            sleeps := sleeps, draws := draws2, randCalls := rc2,
            warnings := warnings, lookups := lk2 ++ [FaultAbortMessageHeader] }

/-- Delay phase of `InjectFault` (src `faults.go` lines 74-92), reached
once the address and method checks have passed; continues into the abort
phase.  Takes exactly the parameter fields the remaining Go code reads. -/
def injectDelayPhase (caller : String) (gh : String → String)
    (randInt : Option Int) (lo hi : Int) : InjectFaultResult :=
  let base : List String :=
    [FaultServerAddressHeader, FaultServerMethodHeader, FaultDelayMsHeader]
  let delayMs := gh FaultDelayMsHeader
  if delayMs = "" then
    injectAbortPhase caller gh randInt lo hi [] [] 0 [] base
  else
    let sel := isSelected FaultDelayPercentageHeader gh randInt
    let lk := base ++ sel.lookups
    match sel.result with
    | none =>
      { outcome := .panicked, sleeps := [], draws := sel.draws,
        randCalls := sel.randCalls, warnings := [], lookups := lk }
    | some (false, msg) =>
      { outcome := .resumed, sleeps := [], draws := sel.draws,
        randCalls := sel.randCalls,
        warnings := [caller ++ ": " ++ msg], lookups := lk }
    | some (true, _) =>
      match atoi delayMs with
      | none =>
        { outcome := .resumed, sleeps := [], draws := sel.draws,
          randCalls := sel.randCalls,
          warnings := [caller ++ ": provided delay " ++ delayMs ++
            " is not a valid integer"],
          lookups := lk }
      | some delay =>
        injectAbortPhase caller gh randInt lo hi [durationNs delay]
          sel.draws sel.randCalls [] lk

/-- Shallow embedding of `InjectFault` (src `faults.go` lines 59-115):
address check, method check, delay phase, abort phase. -/
def InjectFault (p : InjectFaultParams) : InjectFaultResult :=
  let serverAddress := p.getHeaderFn FaultServerAddressHeader
  if serverAddress = "" ∨ serverAddress ≠ trimSuffix p.address clusterSuffix then
    { outcome := .resumed, sleeps := [], draws := [], randCalls := 0,
      warnings := [], lookups := [FaultServerAddressHeader] }
  else
    let serverMethod := p.getHeaderFn FaultServerMethodHeader
    if serverMethod ≠ "" ∧ serverMethod ≠ p.method then
      { outcome := .resumed, sleeps := [], draws := [], randCalls := 0,
        warnings := [],
        lookups := [FaultServerAddressHeader, FaultServerMethodHeader] }
    else
      injectDelayPhase p.callerName p.getHeaderFn p.randInt
        p.abortCodeMin p.abortCodeMax

/-! ### The directive parser and configuration matcher

Modelled from the spec: the Directive Parser and Configuration Matcher
(`parseMatchingFaultHeader` / `parseMatchingFaultConfiguration`) are code of
this repository that is not among the provided sources — only their test
file `internal/faults/headers_test.go` is.  The definitions below follow
the spec's grammar (comma-separated directives of semicolon-separated
`key=value` pairs, keys `a m d D f b F`, whitespace trimmed around
directives), its defaults (`DelayPercentage = 100`, `AbortCode = -1`,
`AbortPercentage = 100`), its error taxonomy (malformed pair, unknown key,
bad integer, percentage out of `[0,100]`, abort code outside the supplied
`[lo,hi]`), its silent dropping of directives with no `address` pair, and
its first-match rule over the raw values in receipt order. -/

/-- Modelled from the spec: one parsed fault directive with its field
defaults. -/
structure faultConfiguration where
  ServerAddress : String
  ServerMethod : String
  DelayMs : Int
  DelayPercentage : Int
  AbortCode : Int
  AbortMessage : String
  AbortPercentage : Int
deriving DecidableEq, Repr

/-- Modelled from the spec: the default (all fields at their sentinel or
wildcard values) fault directive. -/
def defaultFaultConfiguration : faultConfiguration :=
  ⟨"", "", 0, 100, -1, "", 100⟩

/-- Go `strings.Split` on a single separator character, over char lists:
splitting the empty list yields one empty group. -/
def splitOnChar (sep : Char) : List Char → List (List Char)
  | [] => [[]]
  | c :: cs =>
    let r := splitOnChar sep cs
    if c = sep then [] :: r
    else
      match r with
      | [] => [[c]]
      | g :: gs => (c :: g) :: gs

/-- Go `strings.TrimSpace` over char lists: drop whitespace from both
ends. -/
def trimChars (cs : List Char) : List Char :=
  ((cs.dropWhile Char.isWhitespace).reverse.dropWhile Char.isWhitespace).reverse

/-- Split a `key=value` pair at the first `=`; `none` models the
malformed-pair case (no `=` present). -/
def splitKV : List Char → Option (List Char × List Char)
  | [] => none
  | c :: cs =>
    if c = '=' then some ([], cs)
    else
      match splitKV cs with
      | none => none
      | some (k, v) => some (c :: k, v)

/-- Modelled from the spec: apply one `key=value` pair to the directive
being built.  The state is (directive so far, an address pair was seen,
errors so far); every malformed token appends one error and parsing
continues. -/
def applyPair (lo hi : Int) (st : faultConfiguration × Bool × List String)
    (pair : List Char) : faultConfiguration × Bool × List String :=
  let cfg := st.1
  let sawAddr := st.2.1
  let errs := st.2.2
  match splitKV pair with
  | none =>
    (cfg, sawAddr, errs ++ ["invalid key-value pair: \"" ++ String.mk pair ++ "\""])
  | some (k, v) =>
    let key := String.mk k
    let value := String.mk v
    if key = "a" then ({ cfg with ServerAddress := value }, true, errs)
    else if key = "m" then ({ cfg with ServerMethod := value }, sawAddr, errs)
    else if key = "d" then
      match atoi value with
      | none =>
        (cfg, sawAddr, errs ++ ["provided delay is not a valid integer: \"" ++ value ++ "\""])
      | some n => ({ cfg with DelayMs := n }, sawAddr, errs)
    else if key = "D" then
      match atoi value with
      | none =>
        (cfg, sawAddr, errs ++ ["provided percentage is not a valid integer: \"" ++ value ++ "\""])
      | some n =>
        if n < 0 ∨ n > 100 then
          (cfg, sawAddr, errs ++ ["provided percentage is outside the valid range: " ++ toString n])
        else ({ cfg with DelayPercentage := n }, sawAddr, errs)
    else if key = "f" then
      match atoi value with
      | none =>
        (cfg, sawAddr, errs ++ ["provided abort code is not a valid integer: \"" ++ value ++ "\""])
      | some n =>
        if n < lo ∨ n > hi then
          (cfg, sawAddr, errs ++ ["provided abort code is outside the valid range: " ++ toString n])
        else ({ cfg with AbortCode := n }, sawAddr, errs)
    else if key = "b" then ({ cfg with AbortMessage := value }, sawAddr, errs)
    else if key = "F" then
      match atoi value with
      | none =>
        (cfg, sawAddr, errs ++ ["provided percentage is not a valid integer: \"" ++ value ++ "\""])
      | some n =>
        if n < 0 ∨ n > 100 then
          (cfg, sawAddr, errs ++ ["provided percentage is outside the valid range: " ++ toString n])
        else ({ cfg with AbortPercentage := n }, sawAddr, errs)
    else (cfg, sawAddr, errs ++ ["unknown key: \"" ++ key ++ "\""])

/-- Modelled from the spec: parse one semicolon-separated directive.
A directive with no recognized address pair, or with any malformed token,
yields no `faultConfiguration`; its errors (if any) are reported. -/
def parseDirective (lo hi : Int) (cs : List Char) :
    Option faultConfiguration × List String :=
  let st := (splitOnChar ';' cs).foldl (applyPair lo hi)
    (defaultFaultConfiguration, false, [])
  if st.2.1 ∧ st.2.2 = [] then (some st.1, []) else (none, st.2.2)

/-- Modelled from the spec: parse one raw header value into its directives
(in encoding order) and collected errors; directives are trimmed of
surrounding whitespace and empty directives are skipped. -/
def parseHeaderValue (lo hi : Int) (raw : String) :
    List faultConfiguration × List String :=
  (splitOnChar ',' raw.data).foldr
    (fun piece acc =>
      let t := trimChars piece
      if t = [] then acc
      else
        match parseDirective lo hi t with
        | (some cfg, errs) => (cfg :: acc.1, errs ++ acc.2)
        | (none, errs) => (acc.1, errs ++ acc.2))
    ([], [])

/-- Modelled from the spec: a directive targets the current server when its
`ServerAddress` equals the canonical address and its `ServerMethod` is the
wildcard or equals the requested method. -/
def matchesTarget (cfg : faultConfiguration)
    (canonicalAddress requestedMethod : String) : Bool :=
  cfg.ServerAddress == canonicalAddress &&
    (cfg.ServerMethod == "" || cfg.ServerMethod == requestedMethod)

/-- Modelled from the spec: the Configuration Matcher
(`parseMatchingFaultConfiguration`).  Raw values are processed in receipt
order; the first directive (in encoding order) that targets the current
server becomes the match; parsing and error collection continue over the
remaining values. -/
def parseMatchingFaultConfiguration :
    List String → String → String → Int → Int →
      Option faultConfiguration × List String
  | [], _, _, _, _ => (none, [])
  | raw :: rest, canonicalAddress, requestedMethod, lo, hi =>
    let r1 := parseHeaderValue lo hi raw
    let r2 := parseMatchingFaultConfiguration rest canonicalAddress
      requestedMethod lo hi
    ((r1.1.find? (fun cfg => matchesTarget cfg canonicalAddress requestedMethod)).orElse
        (fun _ => r2.1),
      r1.2 ++ r2.2)


theorem isSelected_randCalls_le_one (key : String) (gh : String → String)
    (ri : Option Int) : (isSelected key gh ri).randCalls ≤ 1 := by
  simp only [isSelected]
  repeat' split
  all_goals simp

theorem isSelected_injected (key : String) (gh : String → String) (v : Int) :
    (isSelected key gh (some v)).randCalls = 0
    ∧ (∀ d ∈ (isSelected key gh (some v)).draws, d = v)
    ∧ (isSelected key gh (some v)).result ≠ none := by
  simp only [isSelected]
  repeat' split
  all_goals simp

theorem isSelected_result_some_randCalls (key : String) (gh : String → String)
    (ri : Option Int) (h : (isSelected key gh ri).result ≠ none) :
    (isSelected key gh ri).randCalls = 0 := by
  revert h
  simp only [isSelected]
  repeat' split
  all_goals simp

theorem injectAbortPhase_injected (caller : String) (gh : String → String)
    (v lo hi : Int) (sleeps draws : List Int) (warns lk : List String)
    (hd : ∀ d ∈ draws, d = v) :
    (injectAbortPhase caller gh (some v) lo hi sleeps draws 0 warns lk).randCalls = 0
    ∧ ∀ d ∈ (injectAbortPhase caller gh (some v) lo hi sleeps draws 0 warns
        lk).draws, d = v := by
  obtain ⟨hs1, hs2, hs3⟩ := isSelected_injected FaultAbortPercentageHeader gh v
  simp only [injectAbortPhase]
  repeat' split
  all_goals simp_all
  all_goals try exact hd
  all_goals intro d hdm
  all_goals rcases hdm with hm1 | hm1
  all_goals first
    | exact hd d hm1
    | exact hs2 d hm1

theorem injectAbortPhase_randCalls_le_one (caller : String) (gh : String → String)
    (ri : Option Int) (lo hi : Int) (sleeps draws : List Int)
    (warns lk : List String) :
    (injectAbortPhase caller gh ri lo hi sleeps draws 0 warns lk).randCalls ≤ 1 := by
  have hs := isSelected_randCalls_le_one FaultAbortPercentageHeader gh ri
  simp only [injectAbortPhase]
  repeat' split
  all_goals simp_all

theorem injectDelayPhase_injected (caller : String) (gh : String → String)
    (v lo hi : Int) :
    (injectDelayPhase caller gh (some v) lo hi).randCalls = 0
    ∧ ∀ d ∈ (injectDelayPhase caller gh (some v) lo hi).draws, d = v := by
  obtain ⟨hs1, hs2, hs3⟩ := isSelected_injected FaultDelayPercentageHeader gh v
  simp only [injectDelayPhase]
  repeat' split
  all_goals try exact injectAbortPhase_injected _ _ _ _ _ _ _ _ _ (by simp)
  all_goals try exact absurd (by assumption) hs3
  all_goals try exact ⟨hs1, hs2⟩
  all_goals rw [hs1]
  all_goals exact injectAbortPhase_injected _ _ _ _ _ _ _ _ _ hs2

theorem injectDelayPhase_randCalls_le_one (caller : String) (gh : String → String)
    (ri : Option Int) (lo hi : Int) :
    (injectDelayPhase caller gh ri lo hi).randCalls ≤ 1 := by
  have hs := isSelected_randCalls_le_one FaultDelayPercentageHeader gh ri
  simp only [injectDelayPhase]
  repeat' split
  all_goals try exact injectAbortPhase_randCalls_le_one _ _ _ _ _ _ _ _ _
  all_goals try exact hs
  all_goals try simp_all
  all_goals rw [isSelected_result_some_randCalls FaultDelayPercentageHeader gh ri
    (by simp [*])]
  all_goals exact injectAbortPhase_randCalls_le_one _ _ _ _ _ _ _ _ _

/-- Claim C2: within a single InjectFault decision the random draw is a
single cached value: rand.Intn is invoked at most once in any decision (and
only on the nil-pointer panic path), and with an injected draw v every
value consulted by the delay and abort percentage checks equals v, with
rand.Intn never invoked — the two checks share one draw, never
recomputed. -/
theorem injectFault_single_draw :
    (∀ p : InjectFaultParams, (InjectFault p).randCalls ≤ 1)
    ∧ ∀ (c a m : String) (lo hi : Int) (gh : String → String) (v : Int),
        ((InjectFault ⟨c, a, m, lo, hi, gh, some v⟩).draws.all fun d => d == v) = true
        ∧ (InjectFault ⟨c, a, m, lo, hi, gh, some v⟩).randCalls = 0 := by
  constructor
  · intro p
    simp only [InjectFault]
    repeat' split
    all_goals try exact injectDelayPhase_randCalls_le_one _ _ _ _ _
    all_goals simp
  · intro c a m lo hi gh v
    obtain ⟨h1, h2⟩ := injectDelayPhase_injected c gh v lo hi
    simp only [InjectFault]
    repeat' split
    all_goals try exact ⟨rfl, rfl⟩
    all_goals exact ⟨by simp only [List.all_eq_true, beq_iff_eq]; exact h2, h1⟩

/-- Claim C1 (code bug): with the nil RandInt pointer of the production
configuration and a delay percentage header holding a valid in-range
integer, InjectFault panics inside getRandInt, which writes through the
very pointer its guard just found to be nil; rand.Intn is invoked once and
no callback result is ever returned. -/
theorem injectFault_nil_randInt_panics :
    InjectFault ⟨"caller", "self", "method", 400, 599,
      (fun k =>
        if k = FaultServerAddressHeader then "self"
        else if k = FaultDelayMsHeader then "1"
        else if k = FaultDelayPercentageHeader then "50"
        else ""), none⟩
    = { outcome := Outcome.panicked, sleeps := [], draws := [], randCalls := 1,
        warnings := [],
        lookups := [FaultServerAddressHeader, FaultServerMethodHeader,
          FaultDelayMsHeader, FaultDelayPercentageHeader] } := by decide

/-- Claim C3: the selection predicate with cached draw in [0,100): an empty
percentage header behaves as percentage 100 and always selects; a valid
percentage p in [0,100] selects exactly when draw < p; hence p = 100 always
selects and p = 0 never selects. -/
theorem isSelected_selection_rule (gh : String → String) (key : String)
    (draw p : Int) (hd0 : 0 ≤ draw) (hd1 : draw < 100)
    (hp : gh key = "" ∨ (atoi (gh key) = some p ∧ 0 ≤ p ∧ p ≤ 100)) :
    (isSelected key gh (some draw)).result
        = some (decide (draw < if gh key = "" then 100 else p), "")
    ∧ ((isSelected key gh (some draw)).result = some (true, "")
        ↔ (gh key = "" ∨ draw < p))
    ∧ (p = 100 → (isSelected key gh (some draw)).result = some (true, ""))
    ∧ (p = 0 → gh key ≠ "" →
        (isSelected key gh (some draw)).result = some (false, "")) := by
  rcases hp with h | ⟨hatoi, hp0, hp1⟩
  · simp [isSelected, h, hd1]
  · have hne : gh key ≠ "" := by
      intro h0
      rw [h0, (by decide : atoi "" = (none : Option Int))] at hatoi
      exact Option.noConfusion hatoi
    have hrange : ¬(p < 0 ∨ p > 100) := by omega
    refine ⟨?_, ?_, ?_, ?_⟩
    · simp [isSelected, hne, hatoi, if_neg hrange]
    · simp [isSelected, hne, hatoi, if_neg hrange]
    · intro hq
      subst hq
      simp [isSelected, hne, hatoi, if_neg hrange, hd1]
    · intro hq _
      subst hq
      have hnd : ¬draw < 0 := by omega
      simp [isSelected, hne, hatoi, if_neg hrange, hnd]

theorem isSelected_selection_rule_witness :
    (isSelected "k" (fun s => if s = "k" then "40" else "") (some 30)).result
        = some (decide ((30 : Int) <
            if (fun s => if s = "k" then "40" else "") "k" = "" then 100 else 40), "")
    ∧ ((isSelected "k" (fun s => if s = "k" then "40" else "") (some 30)).result
          = some (true, "")
        ↔ ((fun s => if s = "k" then "40" else "") "k" = "" ∨ (30 : Int) < 40))
    ∧ ((40 : Int) = 100 →
        (isSelected "k" (fun s => if s = "k" then "40" else "") (some 30)).result
          = some (true, ""))
    ∧ ((40 : Int) = 0 → (fun s => if s = "k" then "40" else "") "k" ≠ "" →
        (isSelected "k" (fun s => if s = "k" then "40" else "") (some 30)).result
          = some (false, "")) :=
  isSelected_selection_rule (fun s => if s = "k" then "40" else "") "k" 30 40
    (by decide) (by decide) (Or.inr ⟨by decide, by decide, by decide⟩)

/-- Claim C4: if the server-address header is absent or differs from the
configured address with the cluster-local DNS suffix stripped, InjectFault
resumes the real call untouched: no other header is consulted, nothing
sleeps, no draw is taken, nothing is logged, and the respond callback is
never invoked. -/
theorem injectFault_address_check (p : InjectFaultParams)
    (h : p.getHeaderFn FaultServerAddressHeader = ""
      ∨ p.getHeaderFn FaultServerAddressHeader ≠ trimSuffix p.address clusterSuffix) :
    InjectFault p = { outcome := Outcome.resumed, sleeps := [], draws := [],
                      randCalls := 0, warnings := [],
                      lookups := [FaultServerAddressHeader] } := by
  simp only [InjectFault, if_pos h]

theorem injectFault_address_check_witness :
    InjectFault ⟨"c", "addr", "m", 0, 0, (fun _ => ""), none⟩
      = { outcome := Outcome.resumed, sleeps := [], draws := [], randCalls := 0,
          warnings := [], lookups := [FaultServerAddressHeader] } :=
  injectFault_address_check ⟨"c", "addr", "m", 0, 0, (fun _ => ""), none⟩ (Or.inl rfl)

/-- Claim C5: once the address check passes, a non-empty server-method
header that differs from the endpoint method resumes the real call
untouched (no sleep, no draw, no warning, no respond); an empty method
header matches any method — the decision is then independent of the
endpoint method entirely. -/
theorem injectFault_method_check (p : InjectFaultParams)
    (ha1 : p.getHeaderFn FaultServerAddressHeader ≠ "")
    (ha2 : p.getHeaderFn FaultServerAddressHeader = trimSuffix p.address clusterSuffix) :
    (p.getHeaderFn FaultServerMethodHeader ≠ "" →
      p.getHeaderFn FaultServerMethodHeader ≠ p.method →
      InjectFault p = { outcome := Outcome.resumed, sleeps := [], draws := [],
                        randCalls := 0, warnings := [],
                        lookups := [FaultServerAddressHeader,
                          FaultServerMethodHeader] })
    ∧ (p.getHeaderFn FaultServerMethodHeader = "" →
        ∀ m1 m2 : String,
          InjectFault { p with method := m1 } = InjectFault { p with method := m2 }) := by
  have hA : ¬(p.getHeaderFn FaultServerAddressHeader = ""
      ∨ p.getHeaderFn FaultServerAddressHeader ≠ trimSuffix p.address clusterSuffix) := by
    push_neg
    exact ⟨ha1, ha2⟩
  constructor
  · intro h1 h2
    have hM : p.getHeaderFn FaultServerMethodHeader ≠ ""
        ∧ p.getHeaderFn FaultServerMethodHeader ≠ p.method := ⟨h1, h2⟩
    simp only [InjectFault, if_neg hA, if_pos hM]
  · intro h0 m1 m2
    obtain ⟨c, a, m, lo, hi, gh, ri⟩ := p
    simp only [InjectFault] at hA ⊢
    simp_all

theorem injectFault_method_check_witness :
    InjectFault ⟨"c", "self", "mine", 0, 0,
      (fun k =>
        if k = FaultServerAddressHeader then "self"
        else if k = FaultServerMethodHeader then "other"
        else ""), none⟩
      = { outcome := Outcome.resumed, sleeps := [], draws := [], randCalls := 0,
          warnings := [],
          lookups := [FaultServerAddressHeader, FaultServerMethodHeader] } :=
  (injectFault_method_check ⟨"c", "self", "mine", 0, 0,
      (fun k =>
        if k = FaultServerAddressHeader then "self"
        else if k = FaultServerMethodHeader then "other"
        else ""), none⟩ (by decide) (by decide)).1 (by decide) (by decide)

theorem atoi_ne_empty {s : String} {d : Int} (h : atoi s = some d) : s ≠ "" := by
  intro h0
  rw [h0, (by decide : atoi "" = (none : Option Int))] at h
  exact Option.noConfusion h

theorem wrap64_eq_self (x : Int) (h1 : -(2 ^ 63) ≤ x) (h2 : x < 2 ^ 63) :
    wrap64 x = x := by
  have e1 : (2 : Int) ^ 63 = 9223372036854775808 := by norm_num
  have e2 : (2 : Int) ^ 64 = 18446744073709551616 := by norm_num
  unfold wrap64
  rw [e1, e2]
  rw [e1] at h1 h2
  omega

theorem injectFault_checks_pass (p : InjectFaultParams)
    (ha1 : p.getHeaderFn FaultServerAddressHeader ≠ "")
    (ha2 : p.getHeaderFn FaultServerAddressHeader = trimSuffix p.address clusterSuffix)
    (hm : p.getHeaderFn FaultServerMethodHeader = ""
      ∨ p.getHeaderFn FaultServerMethodHeader = p.method) :
    InjectFault p = injectDelayPhase p.callerName p.getHeaderFn p.randInt
      p.abortCodeMin p.abortCodeMax := by
  have hA : ¬(p.getHeaderFn FaultServerAddressHeader = ""
      ∨ p.getHeaderFn FaultServerAddressHeader ≠ trimSuffix p.address clusterSuffix) := by
    push_neg
    exact ⟨ha1, ha2⟩
  have hM : ¬(p.getHeaderFn FaultServerMethodHeader ≠ ""
      ∧ p.getHeaderFn FaultServerMethodHeader ≠ p.method) := by
    rcases hm with h | h
    · exact fun hc => hc.1 h
    · exact fun hc => hc.2 h
  simp only [InjectFault, if_neg hA, if_neg hM]

theorem injectDelayPhase_empty (caller : String) (gh : String → String)
    (ri : Option Int) (lo hi : Int) (h : gh FaultDelayMsHeader = "") :
    injectDelayPhase caller gh ri lo hi
      = injectAbortPhase caller gh ri lo hi [] [] 0 []
          [FaultServerAddressHeader, FaultServerMethodHeader, FaultDelayMsHeader] := by
  simp only [injectDelayPhase, if_pos h]

theorem injectDelayPhase_sleeps (caller : String) (gh : String → String)
    (ri : Option Int) (lo hi d : Int)
    (hne : gh FaultDelayMsHeader ≠ "")
    (hsel : (isSelected FaultDelayPercentageHeader gh ri).result = some (true, ""))
    (hd : atoi (gh FaultDelayMsHeader) = some d) :
    injectDelayPhase caller gh ri lo hi
      = injectAbortPhase caller gh ri lo hi [durationNs d]
          (isSelected FaultDelayPercentageHeader gh ri).draws
          (isSelected FaultDelayPercentageHeader gh ri).randCalls []
          ([FaultServerAddressHeader, FaultServerMethodHeader, FaultDelayMsHeader]
            ++ (isSelected FaultDelayPercentageHeader gh ri).lookups) := by
  simp only [injectDelayPhase, if_neg hne, hsel, hd]

theorem injectAbortPhase_empty (caller : String) (gh : String → String)
    (ri : Option Int) (lo hi : Int) (sleeps draws : List Int) (rc : Nat)
    (warns lk : List String) (hf : gh FaultAbortCodeHeader = "") :
    injectAbortPhase caller gh ri lo hi sleeps draws rc warns lk
      = { outcome := Outcome.resumed, sleeps := sleeps, draws := draws,
          randCalls := rc, warnings := warns,
          lookups := lk ++ [FaultAbortCodeHeader] } := by
  simp only [injectAbortPhase, if_pos hf]

theorem injectAbortPhase_responds (caller : String) (gh : String → String)
    (ri : Option Int) (lo hi code : Int) (sleeps draws : List Int) (rc : Nat)
    (warns lk : List String)
    (hf : gh FaultAbortCodeHeader ≠ "")
    (hsel : (isSelected FaultAbortPercentageHeader gh ri).result = some (true, ""))
    (hcode : atoi (gh FaultAbortCodeHeader) = some code)
    (hlo : lo ≤ code) (hhi : code ≤ hi) :
    (injectAbortPhase caller gh ri lo hi sleeps draws rc warns lk).outcome
        = Outcome.responded code (gh FaultAbortMessageHeader)
    ∧ (injectAbortPhase caller gh ri lo hi sleeps draws rc warns lk).warnings = warns
    ∧ (injectAbortPhase caller gh ri lo hi sleeps draws rc warns lk).sleeps = sleeps := by
  have hr : ¬(code < lo ∨ code > hi) := by omega
  simp only [injectAbortPhase, if_neg hf, hsel, hcode, if_neg hr]
  exact ⟨trivial, trivial, trivial⟩

theorem injectAbortPhase_out_of_range (caller : String) (gh : String → String)
    (ri : Option Int) (lo hi code : Int) (sleeps draws : List Int) (rc : Nat)
    (warns lk : List String)
    (hf : gh FaultAbortCodeHeader ≠ "")
    (hsel : (isSelected FaultAbortPercentageHeader gh ri).result = some (true, ""))
    (hcode : atoi (gh FaultAbortCodeHeader) = some code)
    (hr : code < lo ∨ hi < code) :
    (injectAbortPhase caller gh ri lo hi sleeps draws rc warns lk).outcome
        = Outcome.resumed
    ∧ (injectAbortPhase caller gh ri lo hi sleeps draws rc warns lk).warnings
        = warns ++ [caller ++ ": provided abort code " ++ toString code
            ++ " is outside of the valid range"] := by
  have hr2 : code < lo ∨ code > hi := hr
  simp only [injectAbortPhase, if_neg hf, hsel, hcode, if_pos hr2]
  exact ⟨trivial, trivial⟩

/-- Claim C6: abort end to end — when the address and method checks pass,
the delay gate does not resume the call, the abort-code header holds a
valid integer within the supplied range, and the abort percentage check
selects, InjectFault returns the result of respond(code, message) with
message taken from the abort-message header; the resume callback is never
invoked. -/
theorem injectFault_abort_end_to_end (c a m : String) (lo hi : Int)
    (gh : String → String) (ri : Option Int) (code : Int)
    (ha1 : gh FaultServerAddressHeader ≠ "")
    (ha2 : gh FaultServerAddressHeader = trimSuffix a clusterSuffix)
    (hm : gh FaultServerMethodHeader = "" ∨ gh FaultServerMethodHeader = m)
    (hd : gh FaultDelayMsHeader = ""
      ∨ ((isSelected FaultDelayPercentageHeader gh ri).result = some (true, "")
          ∧ ∃ d, atoi (gh FaultDelayMsHeader) = some d))
    (hf : gh FaultAbortCodeHeader ≠ "")
    (hsel : (isSelected FaultAbortPercentageHeader gh ri).result = some (true, ""))
    (hcode : atoi (gh FaultAbortCodeHeader) = some code)
    (hlo : lo ≤ code) (hhi : code ≤ hi) :
    (InjectFault ⟨c, a, m, lo, hi, gh, ri⟩).outcome
      = Outcome.responded code (gh FaultAbortMessageHeader) := by
  rw [injectFault_checks_pass ⟨c, a, m, lo, hi, gh, ri⟩ ha1 ha2 hm]
  rcases hd with h | ⟨hsd, d, hdd⟩
  · rw [injectDelayPhase_empty c gh ri lo hi h]
    exact (injectAbortPhase_responds c gh ri lo hi code _ _ _ _ _ hf hsel hcode hlo hhi).1
  · rw [injectDelayPhase_sleeps c gh ri lo hi d (atoi_ne_empty hdd) hsd hdd]
    exact (injectAbortPhase_responds c gh ri lo hi code _ _ _ _ _ hf hsel hcode hlo hhi).1

theorem injectFault_abort_end_to_end_witness :
    (InjectFault ⟨"c", "self", "m", 400, 599,
      (fun k =>
        if k = FaultServerAddressHeader then "self"
        else if k = FaultAbortCodeHeader then "503"
        else if k = FaultAbortPercentageHeader then "100"
        else if k = FaultAbortMessageHeader then "boom"
        else ""), some 50⟩).outcome
      = Outcome.responded 503
          ((fun k =>
            if k = FaultServerAddressHeader then "self"
            else if k = FaultAbortCodeHeader then "503"
            else if k = FaultAbortPercentageHeader then "100"
            else if k = FaultAbortMessageHeader then "boom"
            else "") FaultAbortMessageHeader) :=
  injectFault_abort_end_to_end "c" "self" "m" 400 599
    (fun k =>
      if k = FaultServerAddressHeader then "self"
      else if k = FaultAbortCodeHeader then "503"
      else if k = FaultAbortPercentageHeader then "100"
      else if k = FaultAbortMessageHeader then "boom"
      else "") (some 50) 503
    (by decide) (by decide) (Or.inl (by decide)) (Or.inl (by decide))
    (by decide) (by decide) (by decide) (by decide) (by decide)

/-- Claim C7: abort-code range failure fails open — when the abort phase is
reached and selected but the abort-code header holds an integer outside
[abortCodeMin, abortCodeMax], InjectFault logs exactly one warning naming
the offending code and resumes the real call; the respond callback is never
invoked. -/
theorem injectFault_abort_code_out_of_range (c a m : String) (lo hi : Int)
    (gh : String → String) (ri : Option Int) (code : Int)
    (ha1 : gh FaultServerAddressHeader ≠ "")
    (ha2 : gh FaultServerAddressHeader = trimSuffix a clusterSuffix)
    (hm : gh FaultServerMethodHeader = "" ∨ gh FaultServerMethodHeader = m)
    (hd : gh FaultDelayMsHeader = ""
      ∨ ((isSelected FaultDelayPercentageHeader gh ri).result = some (true, "")
          ∧ ∃ d, atoi (gh FaultDelayMsHeader) = some d))
    (hf : gh FaultAbortCodeHeader ≠ "")
    (hsel : (isSelected FaultAbortPercentageHeader gh ri).result = some (true, ""))
    (hcode : atoi (gh FaultAbortCodeHeader) = some code)
    (hr : code < lo ∨ hi < code) :
    (InjectFault ⟨c, a, m, lo, hi, gh, ri⟩).outcome = Outcome.resumed
    ∧ (InjectFault ⟨c, a, m, lo, hi, gh, ri⟩).warnings
        = [c ++ ": provided abort code " ++ toString code
            ++ " is outside of the valid range"] := by
  rw [injectFault_checks_pass ⟨c, a, m, lo, hi, gh, ri⟩ ha1 ha2 hm]
  rcases hd with h | ⟨hsd, d, hdd⟩
  · rw [injectDelayPhase_empty c gh ri lo hi h]
    have hx := injectAbortPhase_out_of_range c gh ri lo hi code [] [] 0 []
      [FaultServerAddressHeader, FaultServerMethodHeader, FaultDelayMsHeader]
      hf hsel hcode hr
    exact ⟨hx.1, by rw [hx.2]; rfl⟩
  · rw [injectDelayPhase_sleeps c gh ri lo hi d (atoi_ne_empty hdd) hsd hdd]
    have hx := injectAbortPhase_out_of_range c gh ri lo hi code [durationNs d]
      (isSelected FaultDelayPercentageHeader gh ri).draws
      (isSelected FaultDelayPercentageHeader gh ri).randCalls []
      ([FaultServerAddressHeader, FaultServerMethodHeader, FaultDelayMsHeader]
        ++ (isSelected FaultDelayPercentageHeader gh ri).lookups)
      hf hsel hcode hr
    exact ⟨hx.1, by rw [hx.2]; rfl⟩

theorem injectFault_abort_code_out_of_range_witness :
    (InjectFault ⟨"c", "self", "m", 400, 599,
      (fun k =>
        if k = FaultServerAddressHeader then "self"
        else if k = FaultAbortCodeHeader then "600"
        else ""), none⟩).outcome = Outcome.resumed
    ∧ (InjectFault ⟨"c", "self", "m", 400, 599,
        (fun k =>
          if k = FaultServerAddressHeader then "self"
          else if k = FaultAbortCodeHeader then "600"
          else ""), none⟩).warnings
        = ["c" ++ ": provided abort code " ++ toString (600 : Int)
            ++ " is outside of the valid range"] :=
  injectFault_abort_code_out_of_range "c" "self" "m" 400 599
    (fun k =>
      if k = FaultServerAddressHeader then "self"
      else if k = FaultAbortCodeHeader then "600"
      else "") none 600
    (by decide) (by decide) (Or.inl (by decide)) (Or.inl (by decide))
    (by decide) (by decide) (by decide) (Or.inr (by decide))

/-- Claim C8 (amended): delay end to end — when the address and method
checks pass, the delay-ms header holds a valid non-negative integer N whose
value in nanoseconds fits int64 (N * 1000000 < 2^63), the delay percentage
check selects, and no abort-code header is present, InjectFault invokes the
sleep callback exactly once with N milliseconds (N * 1000000 int64
nanoseconds) and returns the resume result unchanged with nothing logged;
for larger N the int64 duration computation wraps around (see the
counterexample). -/
theorem injectFault_delay_end_to_end (c a m : String) (lo hi : Int)
    (gh : String → String) (ri : Option Int) (d : Int)
    (ha1 : gh FaultServerAddressHeader ≠ "")
    (ha2 : gh FaultServerAddressHeader = trimSuffix a clusterSuffix)
    (hm : gh FaultServerMethodHeader = "" ∨ gh FaultServerMethodHeader = m)
    (hne : gh FaultDelayMsHeader ≠ "")
    (hsel : (isSelected FaultDelayPercentageHeader gh ri).result = some (true, ""))
    (hd : atoi (gh FaultDelayMsHeader) = some d)
    (hd0 : 0 ≤ d) (hdr : d * 1000000 < 2 ^ 63)
    (hf : gh FaultAbortCodeHeader = "") :
    (InjectFault ⟨c, a, m, lo, hi, gh, ri⟩).outcome = Outcome.resumed
    ∧ (InjectFault ⟨c, a, m, lo, hi, gh, ri⟩).sleeps = [d * 1000000]
    ∧ (InjectFault ⟨c, a, m, lo, hi, gh, ri⟩).warnings = [] := by
  rw [injectFault_checks_pass ⟨c, a, m, lo, hi, gh, ri⟩ ha1 ha2 hm]
  rw [injectDelayPhase_sleeps c gh ri lo hi d hne hsel hd]
  rw [injectAbortPhase_empty c gh ri lo hi _ _ _ _ _ hf]
  have hw : durationNs d = d * 1000000 := by
    have h0 : 0 ≤ d * 1000000 := mul_nonneg hd0 (by norm_num)
    exact wrap64_eq_self (d * 1000000) (le_trans (by norm_num) h0) hdr
  exact ⟨rfl, by rw [show [durationNs d] = [d * 1000000] from by rw [hw]], rfl⟩

theorem injectFault_delay_end_to_end_witness :
    (InjectFault ⟨"c", "self", "m", 0, 0,
      (fun k =>
        if k = FaultServerAddressHeader then "self"
        else if k = FaultDelayMsHeader then "10"
        else if k = FaultDelayPercentageHeader then "100"
        else ""), some 50⟩).outcome = Outcome.resumed
    ∧ (InjectFault ⟨"c", "self", "m", 0, 0,
        (fun k =>
          if k = FaultServerAddressHeader then "self"
          else if k = FaultDelayMsHeader then "10"
          else if k = FaultDelayPercentageHeader then "100"
          else ""), some 50⟩).sleeps = [(10 : Int) * 1000000]
    ∧ (InjectFault ⟨"c", "self", "m", 0, 0,
        (fun k =>
          if k = FaultServerAddressHeader then "self"
          else if k = FaultDelayMsHeader then "10"
          else if k = FaultDelayPercentageHeader then "100"
          else ""), some 50⟩).warnings = [] :=
  injectFault_delay_end_to_end "c" "self" "m" 0 0
    (fun k =>
      if k = FaultServerAddressHeader then "self"
      else if k = FaultDelayMsHeader then "10"
      else if k = FaultDelayPercentageHeader then "100"
      else "") (some 50) 10
    (by decide) (by decide) (Or.inl (by decide)) (by decide) (by decide)
    (by decide) (by decide) (by norm_num) (by decide)

/-- Claim C8 counterexample: a valid non-negative delay of 9223372036855 ms
(parsed without error by strconv.Atoi) makes
time.Duration(delay) * time.Millisecond overflow int64: the sleep callback
receives the wrapped negative duration -9223372036854551616 ns, not
9223372036855 ms. -/
theorem injectFault_delay_overflow_counterexample :
    (InjectFault ⟨"c", "self", "m", 0, 0,
      (fun k =>
        if k = FaultServerAddressHeader then "self"
        else if k = FaultDelayMsHeader then "9223372036855"
        else ""), none⟩).sleeps = [(-9223372036854551616 : Int)]
    ∧ atoi "9223372036855" = some 9223372036855
    ∧ ((-9223372036854551616 : Int) ≠ 9223372036855 * 1000000) := by decide

/-- Claim C10 (amended): negative delays are not rejected — when the
delay-ms header holds a negative integer d with d ≥ -9223372036854 (so the
nanosecond value fits int64) and the delay percentage check selects,
InjectFault reports no error, invokes the sleep callback once with the
corresponding negative duration d * 1000000 ns, and proceeds to the abort
phase exactly as for a non-negative delay; for more negative d the int64
duration computation wraps to a large positive duration (see the
counterexample). -/
theorem injectFault_negative_delay (c a m : String) (lo hi : Int)
    (gh : String → String) (ri : Option Int) (d : Int)
    (ha1 : gh FaultServerAddressHeader ≠ "")
    (ha2 : gh FaultServerAddressHeader = trimSuffix a clusterSuffix)
    (hm : gh FaultServerMethodHeader = "" ∨ gh FaultServerMethodHeader = m)
    (hne : gh FaultDelayMsHeader ≠ "")
    (hsel : (isSelected FaultDelayPercentageHeader gh ri).result = some (true, ""))
    (hd : atoi (gh FaultDelayMsHeader) = some d)
    (hneg : d < 0) (hrange : -9223372036854 ≤ d) :
    d * 1000000 < 0
    ∧ InjectFault ⟨c, a, m, lo, hi, gh, ri⟩
        = injectAbortPhase c gh ri lo hi [d * 1000000]
            (isSelected FaultDelayPercentageHeader gh ri).draws
            (isSelected FaultDelayPercentageHeader gh ri).randCalls []
            ([FaultServerAddressHeader, FaultServerMethodHeader, FaultDelayMsHeader]
              ++ (isSelected FaultDelayPercentageHeader gh ri).lookups) := by
  have hw : durationNs d = d * 1000000 := by
    have h1 : -(2 ^ 63 : Int) ≤ d * 1000000 := by nlinarith
    have h2 : d * 1000000 < 2 ^ 63 := by nlinarith
    exact wrap64_eq_self (d * 1000000) h1 h2
  constructor
  · nlinarith
  · rw [injectFault_checks_pass ⟨c, a, m, lo, hi, gh, ri⟩ ha1 ha2 hm]
    rw [injectDelayPhase_sleeps c gh ri lo hi d hne hsel hd, hw]

theorem injectFault_negative_delay_witness :
    ((-5 : Int) * 1000000 < 0)
    ∧ InjectFault ⟨"c", "self", "m", 0, 0,
        (fun k =>
          if k = FaultServerAddressHeader then "self"
          else if k = FaultDelayMsHeader then "-5"
          else ""), none⟩
        = injectAbortPhase "c"
            (fun k =>
              if k = FaultServerAddressHeader then "self"
              else if k = FaultDelayMsHeader then "-5"
              else "") none 0 0 [(-5 : Int) * 1000000]
            (isSelected FaultDelayPercentageHeader
              (fun k =>
                if k = FaultServerAddressHeader then "self"
                else if k = FaultDelayMsHeader then "-5"
                else "") none).draws
            (isSelected FaultDelayPercentageHeader
              (fun k =>
                if k = FaultServerAddressHeader then "self"
                else if k = FaultDelayMsHeader then "-5"
                else "") none).randCalls []
            ([FaultServerAddressHeader, FaultServerMethodHeader, FaultDelayMsHeader]
              ++ (isSelected FaultDelayPercentageHeader
                (fun k =>
                  if k = FaultServerAddressHeader then "self"
                  else if k = FaultDelayMsHeader then "-5"
                  else "") none).lookups) :=
  injectFault_negative_delay "c" "self" "m" 0 0
    (fun k =>
      if k = FaultServerAddressHeader then "self"
      else if k = FaultDelayMsHeader then "-5"
      else "") none (-5)
    (by decide) (by decide) (Or.inl (by decide)) (by decide) (by decide)
    (by decide) (by decide) (by norm_num)

/-- Claim C10 counterexample: a delay of -9223372036855 ms underflows
int64 nanoseconds: the sleep callback receives the wrapped POSITIVE
duration 9223372036854551616 ns rather than a negative one. -/
theorem injectFault_negative_delay_overflow_counterexample :
    (InjectFault ⟨"c", "self", "m", 0, 0,
      (fun k =>
        if k = FaultServerAddressHeader then "self"
        else if k = FaultDelayMsHeader then "-9223372036855"
        else ""), none⟩).sleeps = [(9223372036854551616 : Int)]
    ∧ ¬((9223372036854551616 : Int) < 0) := by decide

theorem find?_append_orElse {α : Type} (p : α → Bool) (l1 l2 : List α) :
    (l1 ++ l2).find? p = ((l1.find? p).orElse fun _ => l2.find? p) := by
  induction l1 with
  | nil => rfl
  | cons a t ih =>
    simp only [List.cons_append, List.find?]
    cases hpa : p a
    · simpa using ih
    · rfl

theorem matcher_first_match_general (rawValues : List String)
    (canonicalAddress requestedMethod : String) (lo hi : Int) :
    (parseMatchingFaultConfiguration rawValues canonicalAddress requestedMethod
        lo hi).1
      = ((rawValues.map fun raw => (parseHeaderValue lo hi raw).1).flatten).find?
          (fun cfg => matchesTarget cfg canonicalAddress requestedMethod) := by
  induction rawValues with
  | nil => rfl
  | cons raw rest ih =>
    simp only [parseMatchingFaultConfiguration, List.map_cons, List.flatten_cons]
    rw [find?_append_orElse, ← ih]

/-- Claim C9 (modelled from the spec): the matcher scans raw header values
in receipt order and, within each value, directives in encoding order,
selecting the first directive whose ServerAddress equals the canonical
address and whose ServerMethod is empty or equals the requested method —
i.e. its match is find? of the target predicate over the flattened
directive list; on rawValues ["a=bar", "a=baz, a=foo"] with canonical
address "foo" the flattened list has three directives, only the third
(a=foo) matches, it is returned, and no errors are reported. -/
theorem matcher_first_match_ordering :
    (∀ (rawValues : List String) (canonicalAddress requestedMethod : String)
        (lo hi : Int),
      (parseMatchingFaultConfiguration rawValues canonicalAddress
          requestedMethod lo hi).1
        = ((rawValues.map fun raw => (parseHeaderValue lo hi raw).1).flatten).find?
            (fun cfg => matchesTarget cfg canonicalAddress requestedMethod))
    ∧ ((["a=bar", "a=baz, a=foo"].map fun raw =>
          (parseHeaderValue (0 : Int) (0 : Int) raw).1).flatten
        = [⟨"bar", "", 0, 100, -1, "", 100⟩, ⟨"baz", "", 0, 100, -1, "", 100⟩,
            ⟨"foo", "", 0, 100, -1, "", 100⟩])
    ∧ matchesTarget ⟨"bar", "", 0, 100, -1, "", 100⟩ "foo" "" = false
    ∧ matchesTarget ⟨"baz", "", 0, 100, -1, "", 100⟩ "foo" "" = false
    ∧ matchesTarget ⟨"foo", "", 0, 100, -1, "", 100⟩ "foo" "" = true
    ∧ parseMatchingFaultConfiguration ["a=bar", "a=baz, a=foo"] "foo" "" 0 0
        = (some ⟨"foo", "", 0, 100, -1, "", 100⟩, []) :=
  ⟨matcher_first_match_general, by decide, by decide, by decide, by decide,
    by decide⟩

end Faults
